import Mathlib

/-!
Verification development for the Storage Broker of the WNDR repository
(`common/dataio.py`).  The Python classes `CogData`, `ModelDataManager`,
`TableBuilder` and `DictTableBuilder` are shallowly embedded below:

* a SQLite database file is modelled as an association list from table
  name to `Table`; a `Table` keeps its column list, its (at most one)
  `PRIMARY KEY` column and its rows, each row being an association list
  from column name to stored text;
* the statements the broker issues (`CREATE TABLE`, `INSERT OR IGNORE`,
  `INSERT OR REPLACE`, `SELECT`) are modelled with SQLite's documented
  semantics, the engine itself being an external dependency of the repo;
* fallible Python code (raised exceptions, `IndexError`) is modelled with
  `Option`/`Except`.
-/

/-- One database row: an association list from column name to the stored
text.  (`sqlite3.Row` indexed by column name; all values written by the
broker are bound as text.) -/
abbrev Row := List (String × String)

/-- One table of a scope database: its column names, its `PRIMARY KEY`
column when the creation statement declares one, and its rows in
insertion order. -/
structure Table where
  columns : List String
  pk : Option String
  rows : List Row
deriving DecidableEq, Repr

/-- A scope database file: association list from table name to table,
mirroring `sqlite_master`. -/
abbrev DB := List (String × Table)

/-- `SELECT name FROM sqlite_master WHERE type="table"`
(`ModelDataManager.tables`). -/
def tableNames (db : DB) : List String :=
  db.map Prod.fst

/-- Look a table up by name. -/
def lookupTable : DB → String → Option Table
  | [], _ => none
  | (m, t) :: rest, n => if m = n then some t else lookupTable rest n

/-- Replace the table called `n` by `t` (every other entry is kept). -/
def setTable : DB → String → Table → DB
  | [], _, _ => []
  | (m, t0) :: rest, n, t =>
    if m = n then (n, t) :: setTable rest n t else (m, t0) :: setTable rest n t

-- SCOPES ======================================================

/-- A scope (`model` in the source): either a typed identity — a discord
`Snowflake` object, of which only the class name and the numeric id are
used — or a named scope (a plain string). -/
inductive Scope where
  | typed (kind : String) (id : Nat)
  | named (name : String)
deriving DecidableEq, Repr

/-- Python `str.lower` on the strings this code handles (ASCII class
names and scope names): `Char.toLower` maps `A`–`Z` to `a`–`z` and fixes
everything else.  Implemented on the character list so that kernel
evaluation never touches the UTF-8 byte machinery. -/
def pyLower (s : String) : String :=
  String.mk (s.data.map Char.toLower)

/-- Membership in the character class `[a-z0-9_]` of
`CogData.__model_db_name`'s regex, stated on code points
(`a`–`z` = 97–122, `0`–`9` = 48–57, `_` = 95). -/
def isSafeChar (c : Char) : Bool :=
  (97 ≤ c.toNat && c.toNat ≤ 122) || (48 ≤ c.toNat && c.toNat ≤ 57) || c.toNat == 95

/-- `re.sub(r'[^a-z0-9_]', '_', s)`: every character outside the class is
replaced by `_` (the pattern matches single characters, so the
substitution is a character map). -/
def reSubSafe (s : String) : String :=
  String.mk (s.data.map (fun c => if isSafeChar c then c else '_'))

/-- `CogData.__model_db_name`: typed identities give
`f'{ClassName}_{id}'.lower()`, named scopes give
`re.sub(r'[^a-z0-9_]', '_', model.lower())`. -/
def model_db_name : Scope → String
  | .typed kind id => pyLower (kind ++ "_" ++ toString id)
  | .named s => reSubSafe (pyLower s)

-- FILE PATHS ==================================================

/-- A filesystem path, as its list of components. -/
abbrev FsPath := List String

/-- `CogData.cog_folder = Path(f'cogs/{cog_name}')`. -/
def cog_folder (cog_name : String) : FsPath :=
  ["cogs", cog_name]

/-- Path of the storage file opened by `CogData.__get_manager`:
`cog_folder / 'data' / f'{db_name}.db'`. -/
def manager_db_path (cog_name : String) (model : Scope) : FsPath :=
  cog_folder cog_name ++ ["data", model_db_name model ++ ".db"]

/-- Path unlinked by `CogData.delete`:
`cog_folder / f'{db_name}.db'` (note: no `data` component). -/
def delete_db_path (cog_name : String) (model : Scope) : FsPath :=
  cog_folder cog_name ++ [model_db_name model ++ ".db"]

/-- Effect of `CogData.delete` on the filesystem (a set of files): the
path it targets is unlinked when present. -/
def delete_unlink (fs : List FsPath) (cog_name : String) (model : Scope) : List FsPath :=
  fs.filter (fun p => p ≠ delete_db_path cog_name model)

example : model_db_name (.named "global") = "global" := by decide
example : model_db_name (.named "a b") = "a_b" := by decide
example : model_db_name (.typed "Guild" 12) = "guild_12" := by decide

-- TABLE BUILDERS ==============================================

/-- The data a `TableBuilder` carries into bootstrap.  `table_name` is
the name the regex of `TableBuilder.table_name` extracts from the
creation statement; `createColumns` and `createPk` record what executing
that `CREATE TABLE` statement produces (the statement's meaning under
the SQLite engine, which is external to the repository); at most one
column is declared `PRIMARY KEY` in every statement the repository
contains. -/
structure Builder where
  table_name : String
  createColumns : List String
  createPk : Option String
  default_values : List Row
  insert_on_reconnect : Bool
deriving DecidableEq, Repr

/-- `DictTableBuilder.__init__`: synthesizes
`CREATE TABLE IF NOT EXISTS {name} (key TEXT PRIMARY KEY, value TEXT)`
and turns the default mapping into rows `{'key': k, 'value': v}`. -/
def dictTableBuilder (name : String) (default_values : List (String × String))
    (insert_on_reconnect : Bool) : Builder :=
  { table_name := name
    createColumns := ["key", "value"]
    createPk := some "key"
    default_values := default_values.map (fun kv => [("key", kv.1), ("value", kv.2)])
    insert_on_reconnect := insert_on_reconnect }

/-- The raw arguments of `TableBuilder.__init__` before validation. -/
structure TableBuilderArgs where
  query : String
  default_values : List Row
  insert_on_reconnect : Bool
deriving DecidableEq, Repr

/-- Python `set(d.keys()) == keys`: the two rows have the same set of
field names. -/
def sameKeySet (d e : Row) : Bool :=
  d.all (fun p => e.any (fun q => q.1 == p.1)) && e.all (fun p => d.any (fun q => q.1 == p.1))

/-- `TableBuilder.__init__`: raises unless the statement starts with
`CREATE TABLE`; then, when default rows are given, raises unless every
row's key set equals the first row's.  No storage is touched: the
constructor only validates and stores its arguments. -/
def mkTableBuilder (query : String) (default_values : List Row)
    (insert_on_reconnect : Bool) : Except String TableBuilderArgs :=
  if ¬ query.startsWith "CREATE TABLE" then
    .error "the query must start with CREATE TABLE"
  else
    match default_values with
    | [] => .ok ⟨query, default_values, insert_on_reconnect⟩
    | d0 :: _ =>
      if default_values.all (fun d => sameKeySet d d0) then
        .ok ⟨query, default_values, insert_on_reconnect⟩
      else
        .error "default values must have the same keys"

-- SQLITE STATEMENT SEMANTICS ==================================

/-- Value of the `PRIMARY KEY` column in a row (`none` both when the
table has no primary key and when the row does not bind that column,
i.e. inserts `NULL` — SQLite treats `NULL`s in a (non-`INTEGER`)
primary key as distinct, so they never conflict). -/
def rowPk (pk : Option String) (r : Row) : Option String :=
  pk.bind (fun c => r.lookup c)

/-- Does inserting row `r` hit a `PRIMARY KEY` conflict against `rows`? -/
def conflictsWith (pk : Option String) (rows : List Row) (r : Row) : Bool :=
  match rowPk pk r with
  | none => false
  | some v => rows.any (fun r2 => rowPk pk r2 == some v)

/-- `INSERT OR IGNORE`: append the row unless it conflicts on the
primary key, in which case it is silently skipped. -/
def insertOrIgnore (t : Table) (r : Row) : Table :=
  if conflictsWith t.pk t.rows r then t
  else { t with rows := t.rows ++ [r] }

/-- `INSERT OR REPLACE` (used by `set_dict_value`): delete every row
conflicting on the primary key, then insert. -/
def insertOrReplace (t : Table) (r : Row) : Table :=
  match rowPk t.pk r with
  | none => { t with rows := t.rows ++ [r] }
  | some v =>
    { t with rows := t.rows.filter (fun r2 => ¬ rowPk t.pk r2 == some v) ++ [r] }

/-- `cursor.executemany(f'INSERT OR IGNORE INTO {t} ({default_values[0].keys()}) VALUES (...)', [tuple(d.values()) for d in default_values])`:
the column list names the FIRST row's keys, each parameter tuple is the
corresponding row's values, so the row actually inserted for `d` pairs
the first row's keys with `d`'s values.  The `default_values[0]` access
raises `IndexError` on an empty sequence (modelled by `none`). -/
def execInsertMany (t : Table) (default_values : List Row) : Option Table :=
  match default_values with
  | [] => none
  | d0 :: _ =>
    let ks := d0.map Prod.fst
    some (default_values.foldl (fun t d => insertOrIgnore t (ks.zip (d.map Prod.snd))) t)

/-- The same statement at database level: SQLite errors when the table
does not exist. -/
def insertManyDB (db : DB) (name : String) (default_values : List Row) : Option DB := do
  let t ← lookupTable db name
  let t2 ← execInsertMany t default_values
  pure (setTable db name t2)

/-- Executing `builder.query` (`CREATE TABLE [IF NOT EXISTS] ...`): add
an empty table with the statement's columns and primary key.  Bootstrap
only runs it when the name was absent from `sqlite_master`. -/
def createTable (db : DB) (b : Builder) : DB :=
  if (tableNames db).contains b.table_name then db
  else db ++ [(b.table_name, ⟨b.createColumns, b.createPk, []⟩)]

-- BOOTSTRAP ===================================================

/-- One iteration of the builder loop of
`ModelDataManager.__get_connection`: `tables0` is the table list read
once before the loop; the state is the database content plus the
`commit_on_close` flag.  `none` models a raised exception (the
`IndexError` of `default_values[0]`, or SQLite failing on a missing
table). -/
def bootstrapStep (tables0 : List String) (st : DB × Bool) (b : Builder) :
    Option (DB × Bool) := do
  let (db, commit_on_close) := st
  let (db, commit_on_close) ←
    if ¬ tables0.contains b.table_name then do
      let db := createTable db b
      let db ←
        if b.default_values.isEmpty then pure db
        else insertManyDB db b.table_name b.default_values
      pure (db, true)
    else pure (db, commit_on_close)
  if b.insert_on_reconnect then do
    let db ← insertManyDB db b.table_name b.default_values
    pure (db, commit_on_close)
  else pure (db, commit_on_close)

/-- `ModelDataManager.__get_connection`: read the table list, run the
builder loop, and return the final database content together with the
`commit_on_close` flag that decides whether `conn.commit()` is issued. -/
def get_connection (builders : List Builder) (db0 : DB) : Option (DB × Bool) :=
  builders.foldlM (bootstrapStep (tableNames db0)) (db0, false)

-- KEY/VALUE SHORTCUTS =========================================

/-- A Python value as passed to `set_dict_value`. -/
inductive PyVal where
  | pbool (b : Bool)
  | pint (n : Int)
  | pstr (s : String)
deriving DecidableEq, Repr

/-- Python `str(...)` on those values. -/
def pyStr : PyVal → String
  | .pbool b => if b then "True" else "False"
  | .pint n => toString n
  | .pstr s => s

/-- Python `int(s)` on a string: an optional sign followed by at least
one decimal digit (`none` models the raised `ValueError`). -/
def pyDigits : List Char → Option Nat
  | [] => none
  | cs =>
    cs.foldl (fun acc c =>
      acc.bind (fun n => if c.isDigit then some (n * 10 + (c.toNat - 48)) else none))
      (some 0)

/-- Python `int(s)` (sign handling). -/
def pyInt (s : String) : Option Int :=
  match s.data with
  | '-' :: rest => (pyDigits rest).map (fun n => -(n : Int))
  | cs => (pyDigits cs).map (fun n => (n : Int))

/-- `ModelDataManager.extract_column_names` (reads `cursor.description`
of `SELECT * FROM table`). -/
def extract_column_names (t : Table) : List String :=
  t.columns

/-- The validation shared by the four key/value shortcuts: raise
`ValueError` when the table is not listed in `sqlite_master`, then
raise `ValueError` when `'key'` or `'value'` is not among its column
names. -/
def checkDictTable (db : DB) (table_name : String) : Except String Table :=
  match lookupTable db table_name with
  | none => .error "the table does not exist"
  | some t =>
    if ¬ ((extract_column_names t).contains "key"
          && (extract_column_names t).contains "value") then
      .error "the table is not a key-value table"
    else .ok t

/-- `SELECT * FROM {t} WHERE key=?` followed by `fetchone`. -/
def fetchByKey (t : Table) (key : String) : Option Row :=
  t.rows.find? (fun r => r.lookup "key" == some key)

/-- The casts `get_dict_value` applies to the fetched text. -/
inductive DictCast where
  | cstr
  | cbool
deriving DecidableEq, Repr

/-- Casting a fetched cell: `cast == bool` does `bool(int(value))`
(`.error` models the `ValueError` of `int` on a non-numeric string);
`cast == str` returns the stored text. -/
def applyCast : DictCast → String → Except String PyVal
  | .cstr, v => .ok (.pstr v)
  | .cbool, v =>
    match pyInt v with
    | none => .error "invalid literal for int"
    | some n => .ok (.pbool (n != 0))

/-- `ModelDataManager.get_dict_value`: validate the table, fetch the
row for `key`, return `None` when absent, else the cast value.  An
unbound `value` cell models SQL `NULL` (which the broker itself never
writes): `row['value']` is then Python `None`, so `str` gives the text
`"None"` while `bool(int(None))` raises. -/
def get_dict_value (db : DB) (table_name key : String) (cast : DictCast) :
    Except String (Option PyVal) := do
  let t ← checkDictTable db table_name
  match fetchByKey t key with
  | none => pure none
  | some r =>
    match r.lookup "value" with
    | none =>
      match cast with
      | .cstr => pure (some (.pstr "None"))
      | .cbool => .error "int argument must be a string or a number"
    | some v => do
      let w ← applyCast cast v
      pure (some w)

/-- `ModelDataManager.get_dict_values`: validate the table, then
`{row['key']: str(row['value']) for row in SELECT *}` (cells the row
does not bind do not occur for broker-written tables; they are read as
the empty text here). -/
def get_dict_values (db : DB) (table_name : String) :
    Except String (List (String × String)) := do
  let t ← checkDictTable db table_name
  pure (t.rows.map (fun r => (r.lookup "key" |>.getD "", r.lookup "value" |>.getD "")))

/-- `ModelDataManager.set_dict_value`: validate the table, normalize
booleans through `int(value)`, dump with `str`, then
`INSERT OR REPLACE INTO {t} (key, value) VALUES (?, ?)`. -/
def set_dict_value (db : DB) (table_name key : String) (value : PyVal) :
    Except String DB := do
  let t ← checkDictTable db table_name
  let value : PyVal :=
    match value with
    | .pbool b => .pint (if b then 1 else 0)
    | v => v
  let dump := pyStr value
  pure (setTable db table_name (insertOrReplace t [("key", key), ("value", dump)]))

/-- `ModelDataManager.delete_dict_value`: validate the table, then
`DELETE FROM {t} WHERE key=?`. -/
def delete_dict_value (db : DB) (table_name key : String) : Except String DB := do
  let t ← checkDictTable db table_name
  pure (setTable db table_name
    { t with rows := t.rows.filter (fun r => ¬ r.lookup "key" == some key) })

/-- The condition under which the four shortcuts do NOT raise the
contract-violation `ValueError`: the table exists and its columns
contain both `key` and `value`. -/
def dictTableOk (db : DB) (table_name : String) : Bool :=
  match lookupTable db table_name with
  | none => false
  | some t => (extract_column_names t).contains "key"
              && (extract_column_names t).contains "value"

-- COGDATA CACHE ===============================================

/-- `CogData.get` keys its `__managers` cache by the model itself,
strings being lower-cased first. -/
def normScope : Scope → Scope
  | .typed kind id => .typed kind id
  | .named s => .named (pyLower s)

/-- The mutable state of a `CogData` instance that `get`/`close` touch:
the manager cache, plus a count of `ModelDataManager` constructions
performed so far (each construction opens one storage handle); a cached
manager is represented by the index of its construction, so equal
indices mean the identical instance. -/
structure CogDataState where
  managers : List (Scope × Nat)
  opened : Nat
deriving DecidableEq, Repr

/-- Cache lookup (`model in self.__managers` / `self.__managers[model]`). -/
def findManager : List (Scope × Nat) → Scope → Option Nat
  | [], _ => none
  | (k, m) :: rest, s => if k = s then some m else findManager rest s

/-- `CogData.get`: lower-case string models, then return the cached
manager, creating (and caching) a fresh `ModelDataManager` — i.e.
opening a fresh storage handle — only when the model is absent from the
cache. -/
def cogData_get (st : CogDataState) (model : Scope) : Nat × CogDataState :=
  let model := normScope model
  match findManager st.managers model with
  | some mgr => (mgr, st)
  | none => (st.opened, ⟨st.managers ++ [(model, st.opened)], st.opened + 1⟩)



-- BASIC LEMMAS ================================================

theorem lookupTable_setTable_self {db : DB} {n : String} {t t2 : Table}
    (h : lookupTable db n = some t) :
    lookupTable (setTable db n t2) n = some t2 := by
  induction db with
  | nil => simp [lookupTable] at h
  | cons p rest ih =>
    obtain ⟨m, tt⟩ := p
    by_cases hp : m = n
    · subst hp
      simp [lookupTable, setTable]
    · simp only [lookupTable, hp, if_false] at h
      simp only [setTable, hp, if_false, lookupTable]
      exact ih h

theorem tableNames_setTable (db : DB) (n : String) (t : Table) :
    tableNames (setTable db n t) = tableNames db := by
  induction db with
  | nil => rfl
  | cons p rest ih =>
    obtain ⟨m, tt⟩ := p
    by_cases hp : m = n
    · subst hp
      simp only [tableNames, setTable, if_pos rfl, List.map] at ih ⊢
      simp [ih]
    · simp only [tableNames, setTable, hp, if_false, List.map] at ih ⊢
      simp [ih]

theorem contains_iff_lookup_isSome (db : DB) (n : String) :
    (tableNames db).contains n = true ↔ (lookupTable db n).isSome = true := by
  induction db with
  | nil => simp [tableNames, lookupTable]
  | cons p rest ih =>
    obtain ⟨m, tt⟩ := p
    by_cases hp : m = n
    · subst hp
      simp [tableNames, lookupTable]
    · simp only [tableNames, List.map, lookupTable, hp, if_false, List.contains_cons] at ih ⊢
      simp only [Bool.or_eq_true, beq_iff_eq]
      constructor
      · intro hc
        rcases hc with hc | hc
        · exact absurd hc.symm hp
        · exact ih.mp hc
      · intro hc
        exact Or.inr (ih.mpr hc)

theorem lookup_isSome_setTable (db : DB) (n m : String) (t : Table) :
    (lookupTable (setTable db n t) m).isSome = (lookupTable db m).isSome := by
  induction db with
  | nil => rfl
  | cons p rest ih =>
    obtain ⟨q, tt⟩ := p
    by_cases hp : q = n
    · subst hp
      by_cases hm : q = m
      · subst hm
        simp [lookupTable, setTable]
      · simp [lookupTable, setTable, hm, ih]
    · by_cases hm : q = m
      · subst hm
        simp [lookupTable, setTable, hp, ih]
      · simp [lookupTable, setTable, hp, hm, ih]

theorem lookupTable_append (db1 db2 : DB) (n : String) :
    lookupTable (db1 ++ db2) n = (lookupTable db1 n).or (lookupTable db2 n) := by
  induction db1 with
  | nil => simp [lookupTable]
  | cons p rest ih =>
    obtain ⟨m, tt⟩ := p
    by_cases hp : m = n
    · subst hp
      simp [lookupTable]
    · simp [lookupTable, hp, ih]

/-- Pairwise primary-key conflict between two rows. -/
def confPair (pk : Option String) (r s : Row) : Bool :=
  match rowPk pk r, rowPk pk s with
  | some v, some w => w == v
  | _, _ => false

theorem conflictsWith_singleton (pk : Option String) (s r : Row) :
    conflictsWith pk [s] r = confPair pk r s := by
  cases hr : rowPk pk r <;> cases hs : rowPk pk s <;>
    simp [conflictsWith, confPair, hr, hs]

theorem confPair_symm (pk : Option String) (r s : Row) :
    confPair pk r s = confPair pk s r := by
  rcases hr : rowPk pk r with _ | v <;> rcases hs : rowPk pk s with _ | w <;>
      (unfold confPair; rw [hr, hs]) <;> try rfl
  show (w == v) = (v == w)
  by_cases h : w = v
  · subst h; rfl
  · rw [beq_eq_false_iff_ne.mpr h, beq_eq_false_iff_ne.mpr (Ne.symm h)]

theorem conflictsWith_append (pk : Option String) (R S : List Row) (r : Row) :
    conflictsWith pk (R ++ S) r = (conflictsWith pk R r || conflictsWith pk S r) := by
  cases hr : rowPk pk r <;> simp [conflictsWith, hr, List.any_append]

theorem conflictsWith_self {pk : Option String} {r : Row} {v : String} {R : List Row}
    (hv : rowPk pk r = some v) (hm : r ∈ R) : conflictsWith pk R r = true := by
  simp only [conflictsWith, hv, List.any_eq_true]
  exact ⟨r, hm, by simp [hv]⟩

theorem foldl_insertOrIgnore (cols : List String) (pk : Option String) :
    ∀ (L R : List Row), L.Pairwise (fun a b => confPair pk a b = false) →
    L.foldl insertOrIgnore ⟨cols, pk, R⟩ =
      ⟨cols, pk, R ++ L.filter (fun l => ! conflictsWith pk R l)⟩ := by
  intro L
  induction L with
  | nil => intro R _; simp
  | cons l L ih =>
    intro R hp
    rw [List.pairwise_cons] at hp
    obtain ⟨hl, hp2⟩ := hp
    by_cases hc : conflictsWith pk R l = true
    · have hins : insertOrIgnore ⟨cols, pk, R⟩ l = ⟨cols, pk, R⟩ := by
        simp [insertOrIgnore, hc]
      rw [List.foldl_cons, hins, ih R hp2]
      simp [List.filter_cons, hc]
    · have hcf : conflictsWith pk R l = false := by simpa using hc
      have hins : insertOrIgnore ⟨cols, pk, R⟩ l = ⟨cols, pk, R ++ [l]⟩ := by
        simp [insertOrIgnore, hcf]
      rw [List.foldl_cons, hins, ih (R ++ [l]) hp2]
      have hfl : ∀ x ∈ L, (! conflictsWith pk (R ++ [l]) x) = (! conflictsWith pk R x) := by
        intro x hx
        have h1 : confPair pk x l = false := by
          rw [confPair_symm]
          exact hl x hx
        rw [conflictsWith_append, conflictsWith_singleton, h1]
        simp
      rw [List.filter_congr hfl]
      simp [List.filter_cons, hcf, List.append_assoc]

/-- The rows that `executemany` actually inserts for a default-value
sequence: the first row's field names zipped with each row's values. -/
def canonRows (dvs : List Row) : List Row :=
  match dvs with
  | [] => []
  | d0 :: _ => dvs.map (fun d => (d0.map Prod.fst).zip (d.map Prod.snd))

theorem execInsertMany_eq {dvs : List Row} (t : Table) (h : dvs ≠ []) :
    execInsertMany t dvs = some ((canonRows dvs).foldl insertOrIgnore t) := by
  cases dvs with
  | nil => exact absurd rfl h
  | cons d0 rest =>
    simp only [execInsertMany, canonRows, List.foldl_map]

theorem toLower_of_safe {c : Char} (h : isSafeChar c = true) : c.toLower = c := by
  simp only [isSafeChar, Bool.or_eq_true, Bool.and_eq_true, decide_eq_true_eq,
    beq_iff_eq] at h
  show (if c.toNat ≥ 65 ∧ c.toNat ≤ 90 then Char.ofNat (c.toNat + 32) else c) = c
  rw [if_neg]
  omega

theorem model_db_name_of_canonical {s : String} (h : s.data.all isSafeChar = true) :
    model_db_name (.named s) = s := by
  simp only [List.all_eq_true] at h
  have h1 : s.data.map Char.toLower = s.data := by
    rw [List.map_congr_left (fun c hc => toLower_of_safe (h c hc))]
    exact List.map_id s.data
  have h2 : s.data.map (fun c => if isSafeChar c then c else '_') = s.data := by
    rw [List.map_congr_left (g := id) (fun c hc => by simp [h c hc])]
    exact List.map_id s.data
  show String.mk ((String.mk (s.data.map Char.toLower)).data.map
      (fun c => if isSafeChar c then c else '_')) = s
  rw [show (String.mk (s.data.map Char.toLower)).data = s.data.map Char.toLower from rfl,
    h1, h2]

theorem get_connection_singleton (b : Builder) (db0 : DB) :
    get_connection [b] db0 = bootstrapStep (tableNames db0) (db0, false) b := by
  show List.foldlM _ _ _ = _
  rw [List.foldlM]
  cases bootstrapStep (tableNames db0) (db0, false) b <;> rfl

theorem findManager_append_self {l : List (Scope × Nat)} {s : Scope} {v : Nat}
    (h : findManager l s = none) : findManager (l ++ [(s, v)]) s = some v := by
  induction l with
  | nil => simp [findManager]
  | cons p rest ih =>
    obtain ⟨k, m⟩ := p
    by_cases hk : k = s
    · simp [findManager, hk] at h
    · simp only [findManager, hk, if_false] at h
      simpa [findManager, hk] using ih h

-- CLAIM C1 ====================================================

/-- C1 (code bug): `CogData.delete(scope)` is supposed to remove the
scope's storage file, but it unlinks `cogs/<cog>/<db>.db` while
`CogData.__get_manager` creates the storage at
`cogs/<cog>/data/<db>.db`: the two paths always differ, so after
`delete` the storage file still exists on disk (shown concretely for
cog `demo` and named scope `global`), and a subsequent `get` reopens
the surviving file instead of recreating the storage from scratch. -/
theorem c1_delete_misses_storage_file :
    (∀ (cog : String) (m : Scope),
      decide (delete_db_path cog m = manager_db_path cog m) = false) ∧
    delete_unlink [manager_db_path "demo" (.named "global")] "demo" (.named "global")
      = [manager_db_path "demo" (.named "global")] := by
  constructor
  · intro cog m
    rw [decide_eq_false_iff_not]
    intro h
    have hlen := congrArg List.length h
    simp [delete_db_path, manager_db_path, cog_folder] at hlen
  · decide

-- CLAIM C2 ====================================================

/-- C2 (counterexample): the scope-to-key mapping is NOT injective on
named scopes: `"a b"` and `"a-b"` are distinct scopes whose keys both
sanitize to `"a_b"`. -/
theorem c2_distinct_named_scopes_collide :
    decide (Scope.named "a b" = Scope.named "a-b") = false ∧
    model_db_name (.named "a b") = model_db_name (.named "a-b") := by
  exact ⟨by decide, by decide⟩

/-- C2 (amended): the mapping is deterministic (it is a pure function
of the scope), and it is injective on named scopes whose names are
already canonical — made of `[a-z0-9_]` characters only — because the
key of such a scope is the name itself; distinct named scopes outside
that class can collide (see the counterexample). -/
theorem c2_db_name_injective_on_canonical :
    ∀ s t : String, s.data.all isSafeChar = true → t.data.all isSafeChar = true →
      model_db_name (.named s) = model_db_name (.named t) → s = t := by
  intro s t hs ht h
  rwa [model_db_name_of_canonical hs, model_db_name_of_canonical ht] at h

/-- Witness for `c2_db_name_injective_on_canonical` at a concrete
canonical name. -/
theorem c2_db_name_injective_on_canonical_witness :
    ("ab_01".data.all isSafeChar = true) ∧ ("ab_01" : String) = "ab_01" :=
  ⟨by decide, c2_db_name_injective_on_canonical "ab_01" "ab_01" (by decide) (by decide) rfl⟩

-- CLAIM C3 ====================================================

/-- C3 (code bug): when every registered table already exists and the
only bootstrap writes are the reseed (`insert_on_reconnect`) inserts,
`__get_connection` does NOT commit: `commit_on_close` is set only in
the table-creation branch.  Here the reseed step inserts the missing
default row `newkey` into the existing empty `config` table, yet the
returned commit flag is `false`, contradicting "commit once if any
writes occurred". -/
theorem c3_reseed_only_writes_not_committed :
    get_connection [dictTableBuilder "config" [("newkey", "v")] true]
        [("config", ⟨["key", "value"], some "key", []⟩)]
      = some ([("config", ⟨["key", "value"], some "key",
          [[("key", "newkey"), ("value", "v")]]⟩)], false) := by
  rfl

-- CLAIM C4 (counterexample) ===================================

/-- C4 (counterexample): for a general schema whose creation statement
declares no primary key and whose reseed policy is `always`
(`insert_on_reconnect=True`), even the FIRST open of a fresh scope
duplicates the default row: the creation branch inserts it and the
reseed branch inserts it again, `INSERT OR IGNORE` having no conflict
to ignore without a uniqueness constraint.  The table ends up with the
single default row twice, refuting "the first open leaves exactly
those default rows" and "no row is duplicated". -/
theorem c4_reconnect_without_pk_duplicates :
    (Builder.mk "t" ["a"] none [[("a", "x")]] true).default_values = [[("a", "x")]] ∧
    get_connection [Builder.mk "t" ["a"] none [[("a", "x")]] true] []
      = some ([("t", ⟨["a"], none, [[("a", "x")], [("a", "x")]]⟩)], true) := by
  exact ⟨rfl, rfl⟩

-- CLAIM C7 (counterexample) ===================================

/-- C7 (counterexample): the key-value helpers do NOT reject every
table whose column shape differs from exactly `key`/`value`: a table
with columns `key, value, extra` passes the validation (the code only
checks that `key` and `value` are among the columns), so `get` and
`set` succeed where the claim demands a contract-violation error. -/
theorem c7_extra_column_table_not_rejected :
    decide (extract_column_names ⟨["key", "value", "extra"], some "key", []⟩
      = ["key", "value"]) = false ∧
    get_dict_value [("t", ⟨["key", "value", "extra"], some "key", []⟩)] "t" "k" .cstr
      = .ok none ∧
    (set_dict_value [("t", ⟨["key", "value", "extra"], some "key", []⟩)] "t" "k"
      (.pstr "v")).isOk = true := by
  exact ⟨by decide, rfl, rfl⟩

-- CLAIM C8 ====================================================

/-- C8: repeated `CogData.get(scope)` calls with no intervening close
or delete return the identical manager and leave the cache state
unchanged — in particular the count of opened storage handles does not
grow, so no second handle is opened for the scope. -/
theorem c8_get_identity_stable (st : CogDataState) (model : Scope) :
    cogData_get (cogData_get st model).2 model
      = ((cogData_get st model).1, (cogData_get st model).2) := by
  unfold cogData_get
  cases h : findManager st.managers (normScope model) with
  | some mgr => simp [h]
  | none => simp [h, findManager_append_self h]

theorem canonRows_kv (dvs : List (String × String)) :
    canonRows (dvs.map (fun kv => ([("key", kv.1), ("value", kv.2)] : Row)))
      = dvs.map (fun kv => ([("key", kv.1), ("value", kv.2)] : Row)) := by
  cases dvs with
  | nil => rfl
  | cons kv0 rest =>
    rw [List.map_cons]
    simp only [canonRows]
    rw [← List.map_cons (fun kv => ([("key", kv.1), ("value", kv.2)] : Row)) kv0 rest]
    rw [List.map_map]
    exact List.map_congr_left (fun kv _ => rfl)

theorem pairwise_nonconf_of_nodup_keys {dvs : List (String × String)}
    (h : (dvs.map Prod.fst).Nodup) :
    (dvs.map (fun kv => ([("key", kv.1), ("value", kv.2)] : Row))).Pairwise
      (fun a b => confPair (some "key") a b = false) := by
  rw [List.pairwise_map]
  rw [List.Nodup, List.pairwise_map] at h
  refine h.imp (fun hab => ?_)
  show ((_ : String × String).1 == _) = false
  exact beq_eq_false_iff_ne.mpr (Ne.symm hab)

-- CLAIM C6 ====================================================

/-- C6: for a key-value schema with reseed policy `always`, reopening a
scope whose table already exists — with possibly modified values —
leaves every existing row untouched and appends exactly the default
rows whose key is not yet present (in particular a newly added default
key gets its default value): the reseed `INSERT OR IGNORE` skips every
key already in the table. -/
theorem c6_always_reseed_adds_only_missing_keys
    (db : DB) (name : String) (t : Table) (dvs : List (String × String))
    (hlk : lookupTable db name = some t) (hpk : t.pk = some "key")
    (hne : dvs ≠ []) (hnd : (dvs.map Prod.fst).Nodup) :
    ∃ db2, get_connection [dictTableBuilder name dvs true] db = some (db2, false) ∧
      lookupTable db2 name = some ⟨t.columns, t.pk, t.rows ++
        (dvs.filter (fun kv => ! t.rows.any (fun r => r.lookup "key" == some kv.1))).map
          (fun kv => [("key", kv.1), ("value", kv.2)])⟩ := by
  have hc : (tableNames db).contains name = true :=
    (contains_iff_lookup_isSome db name).mpr (by simp [hlk])
  rw [get_connection_singleton]
  simp only [bootstrapStep, dictTableBuilder]
  rw [if_neg (not_not_intro hc)]
  simp only [pure_bind, if_pos]
  obtain ⟨cols, pk, rows⟩ := t
  simp only at hpk
  subst hpk
  have hne2 : dvs.map (fun kv => ([("key", kv.1), ("value", kv.2)] : Row)) ≠ [] := by
    simpa using hne
  rw [insertManyDB, hlk]
  simp only [Option.bind_eq_bind, Option.some_bind]
  rw [execInsertMany_eq _ hne2, canonRows_kv]
  rw [foldl_insertOrIgnore cols (some "key") _ rows (pairwise_nonconf_of_nodup_keys hnd)]
  refine ⟨_, rfl, ?_⟩
  rw [lookupTable_setTable_self hlk]
  rw [List.filter_map]
  rfl

/-- Witness for `c6_always_reseed_adds_only_missing_keys`: a `settings`
table whose key `a` was manually modified; reseeding with defaults
`a=1, b=2` adds only `b` and leaves `a`'s modified value. -/
theorem c6_always_reseed_adds_only_missing_keys_witness :
    ∃ db2, get_connection [dictTableBuilder "settings" [("a", "1"), ("b", "2")] true]
        [("settings", ⟨["key", "value"], some "key", [[("key", "a"), ("value", "MOD")]]⟩)]
      = some (db2, false) ∧
      lookupTable db2 "settings" = some ⟨["key", "value"], some "key",
        [[("key", "a"), ("value", "MOD")]] ++
        (([("a", "1"), ("b", "2")] : List (String × String)).filter
            (fun kv => ! ([[("key", "a"), ("value", "MOD")]] : List Row).any
              (fun r => r.lookup "key" == some kv.1))).map
          (fun kv => [("key", kv.1), ("value", kv.2)])⟩ :=
  c6_always_reseed_adds_only_missing_keys
    [("settings", ⟨["key", "value"], some "key", [[("key", "a"), ("value", "MOD")]]⟩)]
    "settings" ⟨["key", "value"], some "key", [[("key", "a"), ("value", "MOD")]]⟩
    [("a", "1"), ("b", "2")] rfl rfl (by decide) (by decide)

theorem conflictsWith_nil (pk : Option String) (r : Row) :
    conflictsWith pk [] r = false := by
  cases hr : rowPk pk r <;> simp [conflictsWith, hr]

theorem execInsertMany_reinsert_noop {dvs : List Row} (cols : List String) (pk : Option String)
    (hne : dvs ≠ [])
    (hpw : (canonRows dvs).Pairwise (fun r s => confPair pk r s = false))
    (hrk : ∀ r ∈ canonRows dvs, (rowPk pk r).isSome = true) :
    execInsertMany ⟨cols, pk, canonRows dvs⟩ dvs = some ⟨cols, pk, canonRows dvs⟩ := by
  rw [execInsertMany_eq _ hne, foldl_insertOrIgnore cols pk _ _ hpw]
  have hnil : (canonRows dvs).filter (fun l => ! conflictsWith pk (canonRows dvs) l) = [] := by
    rw [List.filter_eq_nil_iff]
    intro l hl
    obtain ⟨v, hv⟩ := Option.isSome_iff_exists.mp (hrk l hl)
    simp [conflictsWith_self hv hl]
  rw [hnil, List.append_nil]

theorem execInsertMany_fresh {dvs : List Row} (cols : List String) (pk : Option String)
    (hne : dvs ≠ [])
    (hpw : (canonRows dvs).Pairwise (fun r s => confPair pk r s = false)) :
    execInsertMany ⟨cols, pk, []⟩ dvs = some ⟨cols, pk, canonRows dvs⟩ := by
  rw [execInsertMany_eq _ hne, foldl_insertOrIgnore cols pk _ _ hpw]
  have hall : (canonRows dvs).filter (fun l => ! conflictsWith pk [] l) = canonRows dvs := by
    rw [List.filter_eq_self]
    intro l _
    simp [conflictsWith_nil]
  rw [hall, List.nil_append]

-- CLAIM C4 (amended) ==========================================

/-- C4 (amended): for a schema with default rows registered against a
fresh scope, the first open leaves exactly the default rows and a
reopen changes nothing (no duplicate rows, no second table creation,
no commit) — PROVIDED the default rows are pairwise free of
primary-key conflicts, and, when the reseed policy is `always`, every
default row actually binds the primary-key column (key-value schemas
guarantee both).  Without that proviso the code duplicates rows, see
`c4_reconnect_without_pk_duplicates`. -/
theorem c4_bootstrap_idempotent (b : Builder)
    (hne : b.default_values ≠ [])
    (hpw : (canonRows b.default_values).Pairwise
      (fun r s => confPair b.createPk r s = false))
    (hrk : b.insert_on_reconnect = true →
      ∀ r ∈ canonRows b.default_values, (rowPk b.createPk r).isSome = true) :
    get_connection [b] []
      = some ([(b.table_name, ⟨b.createColumns, b.createPk, canonRows b.default_values⟩)],
          true) ∧
    get_connection [b]
        [(b.table_name, ⟨b.createColumns, b.createPk, canonRows b.default_values⟩)]
      = some ([(b.table_name, ⟨b.createColumns, b.createPk, canonRows b.default_values⟩)],
          false) := by
  have hempty : b.default_values.isEmpty = false := by
    cases hdv : b.default_values with
    | nil => exact absurd hdv hne
    | cons d rest => rfl
  constructor
  · -- first open of a fresh scope
    rw [get_connection_singleton]
    simp only [bootstrapStep]
    rw [if_pos (by simp [tableNames])]
    have hcreate : createTable [] b = [(b.table_name, ⟨b.createColumns, b.createPk, []⟩)] := by
      simp [createTable, tableNames]
    rw [hcreate, hempty]
    simp only [Bool.false_eq_true, if_false]
    rw [insertManyDB]
    have hlk0 : lookupTable [(b.table_name, ⟨b.createColumns, b.createPk, []⟩)] b.table_name
        = some ⟨b.createColumns, b.createPk, []⟩ := by
      simp [lookupTable]
    rw [hlk0]
    simp only [Option.bind_eq_bind, Option.some_bind]
    rw [execInsertMany_fresh b.createColumns b.createPk hne hpw]
    simp only [Option.bind_eq_bind, Option.some_bind]
    have hset : setTable [(b.table_name, ⟨b.createColumns, b.createPk, []⟩)] b.table_name
        ⟨b.createColumns, b.createPk, canonRows b.default_values⟩
        = [(b.table_name, ⟨b.createColumns, b.createPk, canonRows b.default_values⟩)] := by
      simp [setTable]
    rw [hset]
    cases hb : b.insert_on_reconnect with
    | false => simp
    | true =>
      simp only [Option.pure_def, Option.bind_eq_bind, Option.some_bind,
        eq_self_iff_true, if_true]
      rw [insertManyDB]
      have hlk1 : lookupTable
          [(b.table_name, ⟨b.createColumns, b.createPk, canonRows b.default_values⟩)]
          b.table_name
          = some ⟨b.createColumns, b.createPk, canonRows b.default_values⟩ := by
        simp [lookupTable]
      rw [hlk1]
      simp only [Option.bind_eq_bind, Option.some_bind]
      rw [execInsertMany_reinsert_noop b.createColumns b.createPk hne hpw (hrk hb)]
      simp only [Option.bind_eq_bind, Option.some_bind]
      have hset2 : setTable
          [(b.table_name, ⟨b.createColumns, b.createPk, canonRows b.default_values⟩)]
          b.table_name ⟨b.createColumns, b.createPk, canonRows b.default_values⟩
          = [(b.table_name, ⟨b.createColumns, b.createPk, canonRows b.default_values⟩)] := by
        simp [setTable]
      rw [hset2]
      rfl
  · -- reopening: table already listed, nothing changes, no commit
    rw [get_connection_singleton]
    simp only [bootstrapStep]
    have hc : (tableNames
        [(b.table_name, ⟨b.createColumns, b.createPk, canonRows b.default_values⟩)]).contains
        b.table_name = true := by
      simp [tableNames]
    rw [if_neg (not_not_intro hc)]
    simp only [pure_bind]
    cases hb : b.insert_on_reconnect with
    | false => simp
    | true =>
      simp only [Option.pure_def, Option.bind_eq_bind, Option.some_bind,
        eq_self_iff_true, if_true]
      rw [insertManyDB]
      have hlk1 : lookupTable
          [(b.table_name, ⟨b.createColumns, b.createPk, canonRows b.default_values⟩)]
          b.table_name
          = some ⟨b.createColumns, b.createPk, canonRows b.default_values⟩ := by
        simp [lookupTable]
      rw [hlk1]
      simp only [Option.bind_eq_bind, Option.some_bind]
      rw [execInsertMany_reinsert_noop b.createColumns b.createPk hne hpw (hrk hb)]
      simp only [Option.bind_eq_bind, Option.some_bind]
      have hset2 : setTable
          [(b.table_name, ⟨b.createColumns, b.createPk, canonRows b.default_values⟩)]
          b.table_name ⟨b.createColumns, b.createPk, canonRows b.default_values⟩
          = [(b.table_name, ⟨b.createColumns, b.createPk, canonRows b.default_values⟩)] := by
        simp [setTable]
      rw [hset2]
      rfl

/-- Witness for `c4_bootstrap_idempotent` with a concrete key-value
schema. -/
theorem c4_bootstrap_idempotent_witness :
    get_connection [dictTableBuilder "cfg" [("a", "1"), ("b", "2")] true] []
      = some ([("cfg", ⟨["key", "value"], some "key",
          canonRows (dictTableBuilder "cfg" [("a", "1"), ("b", "2")] true).default_values⟩)],
          true) ∧
    get_connection [dictTableBuilder "cfg" [("a", "1"), ("b", "2")] true]
        [("cfg", ⟨["key", "value"], some "key",
          canonRows (dictTableBuilder "cfg" [("a", "1"), ("b", "2")] true).default_values⟩)]
      = some ([("cfg", ⟨["key", "value"], some "key",
          canonRows (dictTableBuilder "cfg" [("a", "1"), ("b", "2")] true).default_values⟩)],
          false) :=
  c4_bootstrap_idempotent (dictTableBuilder "cfg" [("a", "1"), ("b", "2")] true)
    (by decide) (by decide) (by decide)

theorem insertManyDB_nil (db : DB) (n : String) : insertManyDB db n [] = none := by
  unfold insertManyDB
  cases h : lookupTable db n <;> simp [h, execInsertMany]

theorem bootstrapStep_none_of_bad {tables0 : List String} {st : DB × Bool} {b : Builder}
    (hrec : b.insert_on_reconnect = true) (hdv : b.default_values = []) :
    bootstrapStep tables0 st b = none := by
  obtain ⟨db, c⟩ := st
  simp only [bootstrapStep, hrec, hdv]
  by_cases hc : tables0.contains b.table_name = true
  · rw [if_neg (not_not_intro hc)]
    simp [insertManyDB_nil]
  · have hcf : tables0.contains b.table_name = false := by simpa using hc
    rw [if_pos (by intro hmem; rw [hmem] at hcf; cases hcf)]
    simp [insertManyDB_nil, List.isEmpty]

theorem foldlM_bootstrap_none (tables0 : List String) :
    ∀ (builders : List Builder) (st : DB × Bool),
      (∃ b ∈ builders, b.insert_on_reconnect = true ∧ b.default_values = []) →
      builders.foldlM (bootstrapStep tables0) st = none := by
  intro builders
  induction builders with
  | nil =>
    intro st h
    simp at h
  | cons b bs ih =>
    intro st h
    rcases h with ⟨b2, hb2, hrec, hdv⟩
    rcases List.mem_cons.mp hb2 with hb2 | hb2
    · subst hb2
      rw [List.foldlM]
      rw [bootstrapStep_none_of_bad hrec hdv]
      rfl
    · rw [List.foldlM]
      cases hstep : bootstrapStep tables0 st b with
      | none => rfl
      | some st2 =>
        show (some st2 >>= fun s => bs.foldlM (bootstrapStep tables0) s) = none
        rw [show ((some st2 >>= fun s => bs.foldlM (bootstrapStep tables0) s)
            = bs.foldlM (bootstrapStep tables0) st2) from rfl]
        exact ih st2 ⟨b2, hb2, hrec, hdv⟩

theorem insertManyDB_exists {db : DB} {n : String} {dvs : List Row}
    (hlk : (lookupTable db n).isSome = true) (hne : dvs ≠ []) :
    ∃ db2, insertManyDB db n dvs = some db2 ∧
      ∀ m, (lookupTable db2 m).isSome = (lookupTable db m).isSome := by
  obtain ⟨t, ht⟩ := Option.isSome_iff_exists.mp hlk
  cases dvs with
  | nil => exact absurd rfl hne
  | cons d rest =>
    refine ⟨setTable db n ((canonRows (d :: rest)).foldl insertOrIgnore t), ?_, ?_⟩
    · rw [insertManyDB, ht]
      simp only [Option.bind_eq_bind, Option.some_bind]
      rw [execInsertMany_eq t (List.cons_ne_nil d rest)]
      rfl
    · intro m
      exact lookup_isSome_setTable db n m _

theorem lookup_createTable_self (db : DB) (b : Builder) :
    (lookupTable (createTable db b) b.table_name).isSome = true := by
  unfold createTable
  by_cases hc : (tableNames db).contains b.table_name = true
  · rw [if_pos hc]
    exact (contains_iff_lookup_isSome db b.table_name).mp hc
  · have hcf : (tableNames db).contains b.table_name = false := by simpa using hc
    rw [if_neg (by intro hmem; rw [hmem] at hcf; cases hcf)]
    rw [lookupTable_append]
    cases hl : lookupTable db b.table_name with
    | some t => simp [Option.or]
    | none => simp [Option.or, lookupTable]

theorem lookup_createTable_mono {db : DB} (b : Builder) (m : String)
    (h : (lookupTable db m).isSome = true) :
    (lookupTable (createTable db b) m).isSome = true := by
  unfold createTable
  by_cases hc : (tableNames db).contains b.table_name = true
  · rwa [if_pos hc]
  · have hcf : (tableNames db).contains b.table_name = false := by simpa using hc
    rw [if_neg (by intro hmem; rw [hmem] at hcf; cases hcf)]
    rw [lookupTable_append]
    obtain ⟨t, ht⟩ := Option.isSome_iff_exists.mp h
    simp [ht, Option.or]

theorem bootstrapStep_good {tables0 : List String} {db : DB} {c : Bool} {b : Builder}
    (hgood : b.insert_on_reconnect = true → b.default_values ≠ [])
    (hinv : ∀ n, tables0.contains n = true → (lookupTable db n).isSome = true) :
    ∃ db2 c2, bootstrapStep tables0 (db, c) b = some (db2, c2) ∧
      ∀ n, (lookupTable db n).isSome = true → (lookupTable db2 n).isSome = true := by
  simp only [bootstrapStep]
  by_cases hc : tables0.contains b.table_name = true
  · rw [if_neg (not_not_intro hc)]
    cases hb : b.insert_on_reconnect with
    | false =>
      exact ⟨db, c, rfl, fun n h => h⟩
    | true =>
      obtain ⟨db2, hdb2, hpres⟩ := insertManyDB_exists (hinv _ hc) (hgood hb)
      refine ⟨db2, c, ?_, fun n h => by rw [hpres n]; exact h⟩
      simp only [Option.pure_def, Option.bind_eq_bind, Option.some_bind,
        eq_self_iff_true, if_true]
      rw [hdb2]
      rfl
  · have hcf : tables0.contains b.table_name = false := by simpa using hc
    rw [if_pos (by intro hmem; rw [hmem] at hcf; cases hcf)]
    cases hdv : b.default_values.isEmpty with
    | true =>
      have hdvnil : b.default_values = [] := List.isEmpty_iff.mp hdv
      cases hb : b.insert_on_reconnect with
      | false =>
        refine ⟨createTable db b, true, ?_, fun n h => lookup_createTable_mono b n h⟩
        rfl
      | true => exact absurd hdvnil (hgood hb)
    | false =>
      have hdvne : b.default_values ≠ [] := by
        intro hnil
        rw [hnil] at hdv
        cases hdv
      obtain ⟨db2, hdb2, hpres2⟩ :=
        insertManyDB_exists (lookup_createTable_self db b) hdvne
      cases hb : b.insert_on_reconnect with
      | false =>
        refine ⟨db2, true, ?_, ?_⟩
        · simp only [Option.pure_def, Option.bind_eq_bind, Option.some_bind]
          rw [hdb2]
          rfl
        · intro n h
          rw [hpres2 n]
          exact lookup_createTable_mono b n h
      | true =>
        have hlk2 : (lookupTable db2 b.table_name).isSome = true := by
          rw [hpres2]
          exact lookup_createTable_self db b
        obtain ⟨db3, hdb3, hpres3⟩ := insertManyDB_exists hlk2 (hgood hb)
        refine ⟨db3, true, ?_, ?_⟩
        · simp only [Option.pure_def, Option.bind_eq_bind, Option.some_bind,
            eq_self_iff_true, if_true]
          rw [hdb2]
          simp only [Option.some_bind]
          rw [hdb3]
          rfl
        · intro n h
          rw [hpres3 n, hpres2 n]
          exact lookup_createTable_mono b n h

theorem foldlM_bootstrap_isSome (tables0 : List String) :
    ∀ (builders : List Builder) (db : DB) (c : Bool),
      (∀ b ∈ builders, b.insert_on_reconnect = true → b.default_values ≠ []) →
      (∀ n, tables0.contains n = true → (lookupTable db n).isSome = true) →
      (builders.foldlM (bootstrapStep tables0) (db, c)).isSome = true := by
  intro builders
  induction builders with
  | nil =>
    intro db c _ _
    rfl
  | cons b bs ih =>
    intro db c hgood hinv
    obtain ⟨db2, c2, hstep, hpres⟩ :=
      bootstrapStep_good (hgood b (List.mem_cons_self b bs)) hinv
    rw [List.foldlM, hstep]
    show (bs.foldlM (bootstrapStep tables0) (db2, c2)).isSome = true
    exact ih db2 c2 (fun b2 hb2 => hgood b2 (List.mem_cons_of_mem b hb2))
      (fun n hn => hpres n (hinv n hn))

-- CLAIM C5 ====================================================

/-- C5: the reseed branch of bootstrap reads `default_values[0]`
unconditionally, so whenever some registered schema has
`insert_on_reconnect=True` and an empty default-row sequence — in
particular a `DictTableBuilder` built with its default empty mapping —
opening the scope fails with an out-of-range access (`none`) instead
of completing; and bootstrap is total under the precondition that
every always-reseed schema has at least one default row. -/
theorem c5_empty_always_reseed_crashes_bootstrap :
    (∀ (builders : List Builder) (db : DB),
      (∃ b ∈ builders, b.insert_on_reconnect = true ∧ b.default_values = []) →
      get_connection builders db = none) ∧
    (∀ db : DB, get_connection [dictTableBuilder "config" [] true] db = none) ∧
    (∀ (builders : List Builder) (db : DB),
      (∀ b ∈ builders, b.insert_on_reconnect = true → b.default_values ≠ []) →
      (get_connection builders db).isSome = true) := by
  refine ⟨?_, ?_, ?_⟩
  · intro builders db h
    exact foldlM_bootstrap_none (tableNames db) builders (db, false) h
  · intro db
    exact foldlM_bootstrap_none (tableNames db) _ (db, false)
      ⟨dictTableBuilder "config" [] true, by simp, rfl, rfl⟩
  · intro builders db h
    exact foldlM_bootstrap_isSome (tableNames db) builders db false h
      (fun n hn => (contains_iff_lookup_isSome db n).mp hn)

/-- Witness for `c5_empty_always_reseed_crashes_bootstrap`. -/
theorem c5_empty_always_reseed_crashes_bootstrap_witness :
    get_connection [dictTableBuilder "config" [] true] [] = none ∧
    (get_connection [dictTableBuilder "c" [("a", "1")] true] []).isSome = true :=
  ⟨c5_empty_always_reseed_crashes_bootstrap.2.1 [],
   c5_empty_always_reseed_crashes_bootstrap.2.2 [dictTableBuilder "c" [("a", "1")] true] []
     (by decide)⟩

theorem except_error_bind {α β : Type} (e : String) (f : α → Except String β) :
    (Except.error e >>= f) = Except.error e := rfl

theorem except_ok_bind {α β : Type} (a : α) (f : α → Except String β) :
    (Except.ok a >>= f) = f a := rfl

theorem checkDictTable_isOk (db : DB) (n : String) :
    (checkDictTable db n).isOk = dictTableOk db n := by
  cases h : lookupTable db n with
  | none => simp [checkDictTable, dictTableOk, h, Except.isOk, Except.toBool]
  | some t =>
    cases hk : (extract_column_names t).contains "key" with
    | false =>
      have hm1 : "key" ∉ extract_column_names t := by simpa using hk
      simp [checkDictTable, dictTableOk, h, hk, hm1, Except.isOk, Except.toBool]
    | true =>
      have hm1 : "key" ∈ extract_column_names t := by simpa using hk
      cases hv : (extract_column_names t).contains "value" with
      | false =>
        have hm2 : "value" ∉ extract_column_names t := by simpa using hv
        simp [checkDictTable, dictTableOk, h, hk, hv, hm1, hm2, Except.isOk, Except.toBool]
      | true =>
        have hm2 : "value" ∈ extract_column_names t := by simpa using hv
        simp [checkDictTable, dictTableOk, h, hk, hv, hm1, hm2, Except.isOk, Except.toBool]

-- CLAIM C7 (amended) ==========================================

/-- C7 (amended): every key-value operation (`get_dict_value`,
`get_dict_values`, `set_dict_value`, `delete_dict_value`) raises the
contract-violation error — synchronously, returning no new state —
exactly when the target table does not exist or its columns do not
INCLUDE both `key` and `value`; a table carrying extra columns besides
`key`/`value` is accepted, not rejected (see
`c7_extra_column_table_not_rejected`). -/
theorem c7_kv_ops_error_iff_table_unusable
    (db : DB) (table_name key : String) (value : PyVal) :
    ((get_dict_value db table_name key .cstr).isOk = dictTableOk db table_name) ∧
    ((get_dict_values db table_name).isOk = dictTableOk db table_name) ∧
    ((set_dict_value db table_name key value).isOk = dictTableOk db table_name) ∧
    ((delete_dict_value db table_name key).isOk = dictTableOk db table_name) ∧
    (dictTableOk db table_name = true ↔
      ∃ t, lookupTable db table_name = some t ∧
        "key" ∈ t.columns ∧ "value" ∈ t.columns) := by
  have hiff : (dictTableOk db table_name = true ↔
      ∃ t, lookupTable db table_name = some t ∧
        "key" ∈ t.columns ∧ "value" ∈ t.columns) := by
    unfold dictTableOk extract_column_names
    cases h : lookupTable db table_name with
    | none => simp
    | some t => simp [List.contains_iff_exists_mem_beq, beq_iff_eq]
  cases hchk : checkDictTable db table_name with
  | error e =>
    have hok : dictTableOk db table_name = false := by
      rw [← checkDictTable_isOk, hchk]
      rfl
    refine ⟨?_, ?_, ?_, ?_, hiff⟩ <;>
      simp [get_dict_value, get_dict_values, set_dict_value, delete_dict_value,
        hchk, hok, except_error_bind, Except.isOk, Except.toBool]
  | ok t =>
    have hok : dictTableOk db table_name = true := by
      rw [← checkDictTable_isOk, hchk]
      rfl
    refine ⟨?_, ?_, ?_, ?_, hiff⟩
    · simp only [get_dict_value, hchk, except_ok_bind]
      cases hf : fetchByKey t key with
      | none => simp [hok, hf, Except.isOk, Except.toBool, pure, Except.pure]
      | some r =>
        cases hv : r.lookup "value" with
        | none => simp [hok, hf, hv, Except.isOk, Except.toBool, pure, Except.pure]
        | some v =>
          simp [hok, hf, hv, Except.isOk, Except.toBool, applyCast, except_ok_bind,
            pure, Except.pure, Functor.map, Except.map]
    · simp [get_dict_values, hchk, hok, except_ok_bind, Except.isOk, Except.toBool]
    · simp [set_dict_value, hchk, hok, except_ok_bind, Except.isOk, Except.toBool]
    · simp [delete_dict_value, hchk, hok, except_ok_bind, Except.isOk, Except.toBool]

/-- Membership of field name `k` in a row (Python `k in d.keys()`). -/
def keyMem (d : Row) (k : String) : Bool :=
  d.any (fun p => p.1 == k)

theorem sameKeySet_iff {d e : Row} :
    sameKeySet d e = true ↔ ∀ k, (keyMem d k = true ↔ keyMem e k = true) := by
  unfold sameKeySet keyMem
  rw [Bool.and_eq_true]
  simp only [List.all_eq_true, List.any_eq_true]
  constructor
  · rintro ⟨h1, h2⟩ k
    constructor
    · rintro ⟨p, hp, hpk⟩
      obtain ⟨q, hq, hq1⟩ := h1 p hp
      refine ⟨q, hq, ?_⟩
      rw [beq_iff_eq] at hq1 hpk ⊢
      rw [hq1, hpk]
    · rintro ⟨p, hp, hpk⟩
      obtain ⟨q, hq, hq1⟩ := h2 p hp
      refine ⟨q, hq, ?_⟩
      rw [beq_iff_eq] at hq1 hpk ⊢
      rw [hq1, hpk]
  · intro h
    constructor
    · intro p hp
      obtain ⟨q, hq, hqk⟩ := (h p.1).mp ⟨p, hp, by simp⟩
      exact ⟨q, hq, hqk⟩
    · intro p hp
      obtain ⟨q, hq, hqk⟩ := (h p.1).mpr ⟨p, hp, by simp⟩
      exact ⟨q, hq, hqk⟩

-- CLAIM C9 ====================================================

/-- C9: `TableBuilder` construction fails exactly when the creation
statement does not start with `CREATE TABLE`, or when the supplied
default rows do not all share an identical field set (any two rows
agree on which field names they contain); otherwise construction
succeeds.  The constructor is pure — no storage is touched. -/
theorem c9_schema_validation_iff (query : String) (default_values : List Row)
    (insert_on_reconnect : Bool) :
    (mkTableBuilder query default_values insert_on_reconnect).isOk = true ↔
      (query.startsWith "CREATE TABLE" = true ∧
       ∀ d ∈ default_values, ∀ e ∈ default_values, ∀ k,
         (keyMem d k = true ↔ keyMem e k = true)) := by
  unfold mkTableBuilder
  by_cases hq : query.startsWith "CREATE TABLE" = true
  · rw [if_neg (not_not_intro hq)]
    cases default_values with
    | nil => simp [hq, Except.isOk, Except.toBool]
    | cons d0 rest =>
      show (if ((d0 :: rest).all fun d => sameKeySet d d0) = true then
          Except.ok (⟨query, d0 :: rest, insert_on_reconnect⟩ : TableBuilderArgs)
        else Except.error "default values must have the same keys").isOk = true ↔ _
      by_cases hall : ((d0 :: rest).all (fun d => sameKeySet d d0)) = true
      · rw [if_pos hall]
        simp only [Except.isOk, Except.toBool, hq, true_and, true_iff]
        intro d hd e he k
        rw [List.all_eq_true] at hall
        have hd0 := sameKeySet_iff.mp (hall d hd) k
        have he0 := sameKeySet_iff.mp (hall e he) k
        exact hd0.trans he0.symm
      · rw [if_neg hall]
        simp only [Except.isOk, Except.toBool, hq, true_and]
        constructor
        · intro h
          cases h
        · intro hcontra
          exfalso
          apply hall
          rw [List.all_eq_true]
          intro d hd
          exact sameKeySet_iff.mpr
            (fun k => hcontra d hd d0 (List.mem_cons_self d0 rest) k)
  · have hqf : query.startsWith "CREATE TABLE" = false := by simpa using hq
    rw [if_pos (by rw [hqf]; exact Bool.false_ne_true)]
    simp [Except.isOk, Except.toBool, hqf]

theorem checkDictTable_ok_of {db : DB} {n : String} {t : Table}
    (hlk : lookupTable db n = some t)
    (hkc : (extract_column_names t).contains "key" = true)
    (hvc : (extract_column_names t).contains "value" = true) :
    checkDictTable db n = .ok t := by
  unfold checkDictTable
  rw [hlk]
  have hm1 : "key" ∈ extract_column_names t := by simpa using hkc
  have hm2 : "value" ∈ extract_column_names t := by simpa using hvc
  simp [hm1, hm2]

theorem insertOrReplace_columns (t : Table) (r : Row) :
    (insertOrReplace t r).columns = t.columns := by
  unfold insertOrReplace
  cases hr : rowPk t.pk r <;> rfl

theorem insertOrReplace_pk (t : Table) (r : Row) :
    (insertOrReplace t r).pk = t.pk := by
  unfold insertOrReplace
  cases hr : rowPk t.pk r <;> rfl

theorem fetchByKey_insertOrReplace (t : Table) (key dump : String)
    (hpk : t.pk = some "key") :
    fetchByKey (insertOrReplace t [("key", key), ("value", dump)]) key
      = some [("key", key), ("value", dump)] := by
  unfold insertOrReplace fetchByKey
  rw [hpk]
  have hr0 : rowPk (some "key") [("key", key), ("value", dump)] = some key := rfl
  rw [hr0]
  have hnone : (t.rows.filter
        (fun r2 => decide ¬((rowPk (some "key") r2 == some key) = true))).find?
      (fun r => r.lookup "key" == some key) = none := by
    rw [List.find?_eq_none]
    intro r hr
    have hq := (List.mem_filter.mp hr).2
    rw [decide_eq_true_iff] at hq
    exact fun hcontra => hq hcontra
  rw [List.find?_append, hnone]
  simp [List.find?]

-- CLAIM C10 ===================================================

/-- C10: on a correctly shaped key-value table,
`set_dict_value(table, "flag", b)` for a boolean `b` stores the text
`"1"`/`"0"` (via the `int` normalization and `str` dump), and a
following `get_dict_value(table, "flag", bool)` recovers `b` through
`bool(int(text))`: booleans round-trip, and for `True` the stored text
is exactly `"1"`. -/
theorem c10_bool_roundtrip (db : DB) (name : String) (t : Table) (b : Bool)
    (hlk : lookupTable db name = some t) (hpk : t.pk = some "key")
    (hkc : (extract_column_names t).contains "key" = true)
    (hvc : (extract_column_names t).contains "value" = true) :
    ∃ db2, set_dict_value db name "flag" (.pbool b) = .ok db2 ∧
      get_dict_value db2 name "flag" .cstr
        = .ok (some (.pstr (if b then "1" else "0"))) ∧
      get_dict_value db2 name "flag" .cbool = .ok (some (.pbool b)) := by
  have hchk := checkDictTable_ok_of hlk hkc hvc
  have hlk2 : lookupTable
      (setTable db name (insertOrReplace t [("key", "flag"), ("value", if b then "1" else "0")]))
      name = some (insertOrReplace t [("key", "flag"), ("value", if b then "1" else "0")]) :=
    lookupTable_setTable_self hlk
  have hkc2 : (extract_column_names
      (insertOrReplace t [("key", "flag"), ("value", if b then "1" else "0")])).contains "key"
      = true := by
    unfold extract_column_names
    rw [insertOrReplace_columns]
    exact hkc
  have hvc2 : (extract_column_names
      (insertOrReplace t [("key", "flag"), ("value", if b then "1" else "0")])).contains "value"
      = true := by
    unfold extract_column_names
    rw [insertOrReplace_columns]
    exact hvc
  have hchk2 := checkDictTable_ok_of hlk2 hkc2 hvc2
  refine ⟨setTable db name
      (insertOrReplace t [("key", "flag"), ("value", if b then "1" else "0")]), ?_, ?_, ?_⟩
  · simp only [set_dict_value, hchk, except_ok_bind]
    cases b <;> rfl
  · simp only [get_dict_value, hchk2, except_ok_bind]
    rw [fetchByKey_insertOrReplace t "flag" (if b then "1" else "0") hpk]
    cases b <;> rfl
  · simp only [get_dict_value, hchk2, except_ok_bind]
    rw [fetchByKey_insertOrReplace t "flag" (if b then "1" else "0") hpk]
    cases b <;> rfl

/-- Witness for `c10_bool_roundtrip` on a concrete empty key-value
table and `b = True`. -/
theorem c10_bool_roundtrip_witness :
    ∃ db2, set_dict_value [("s", ⟨["key", "value"], some "key", []⟩)] "s" "flag"
        (.pbool true) = .ok db2 ∧
      get_dict_value db2 "s" "flag" .cstr = .ok (some (.pstr "1")) ∧
      get_dict_value db2 "s" "flag" .cbool = .ok (some (.pbool true)) :=
  c10_bool_roundtrip [("s", ⟨["key", "value"], some "key", []⟩)] "s"
    ⟨["key", "value"], some "key", []⟩ true rfl rfl (by decide) (by decide)
